import Mathlib

/-!
Verification of the graph compiler of `gftools` (`Lib/gftools/builder/ninja.py`,
`Lib/gftools/builder/operations/instantiateUfo.py`).

The Python code is shallowly embedded: the ninja `Writer` calls become an
explicit list of `Edge` values, the mutable builder object becomes an explicit
`BuilderState` (edges emitted so far plus the `temporaries` list of stamp
files), the `self.config` dictionary becomes an association list `Config`, and
fallible code returns `Except`.  String and path primitives used by the code
(`str.replace`, `str.split`, `pathlib.Path`, `os.path.join`) are re-implemented
here with structural recursion so that every definition evaluates inside the
kernel.
-/

/-! ## String utilities (Python semantics, structurally recursive) -/

/-- Split a character list on a separator character.  Mirrors Python
`str.split(sep)` for a one-character separator: `"".split(",") == [""]`. -/
def splitCharAux (sep : Char) : List Char → List Char → List (List Char)
  | [], acc => [acc.reverse]
  | c :: cs, acc =>
    if c = sep then acc.reverse :: splitCharAux sep cs []
    else splitCharAux sep cs (c :: acc)

/-- Python `s.split(sep)` for a one-character separator. -/
def pySplitChar (s : String) (sep : Char) : List String :=
  (splitCharAux sep s.toList []).map String.mk

/-- Python `c in s` for a single character `c`. -/
def strContainsChar (s : String) (c : Char) : Bool :=
  s.toList.contains c

/-- Python `s.startswith(pre)`. -/
def strStartsWith (s pre : String) : Bool :=
  pre.toList.isPrefixOf s.toList

/-- Python `s.endswith(suf)`. -/
def strEndsWith (s suf : String) : Bool :=
  suf.toList.isSuffixOf s.toList

/-- Python `s.lower()` (ASCII case folding, enough for the paths involved). -/
def strToLower (s : String) : String :=
  String.mk (s.toList.map Char.toLower)

/-- Substring test on character lists (Python `needle in haystack`). -/
def charsHasSub (needle : List Char) : List Char → Bool
  | [] => needle.isEmpty
  | c :: cs => needle.isPrefixOf (c :: cs) || charsHasSub needle cs

/-- Python `needle in haystack` for strings. -/
def strHasSub (haystack needle : String) : Bool :=
  charsHasSub needle.toList haystack.toList

/-- One fuel-indexed step list of Python `str.replace`: replace every
non-overlapping occurrence of `pat` (scanning left to right) by `rep`.
The fuel is an upper bound on the number of scanning steps; each step
consumes at least one character of the subject, so `s.length` fuel is enough. -/
def replaceFuel (rep pat : List Char) : Nat → List Char → List Char
  | 0, s => s
  | _ + 1, [] => []
  | n + 1, c :: cs =>
    if pat.isPrefixOf (c :: cs) then rep ++ replaceFuel rep pat n ((c :: cs).drop pat.length)
    else c :: replaceFuel rep pat n cs

/-- Python `s.replace(pat, rep)` for a non-empty pattern (every pattern used by
the code under study is non-empty; for the empty pattern we return `s`). -/
def pyReplace (s pat rep : String) : String :=
  if pat = "" then s
  else String.mk (replaceFuel rep.toList pat.toList s.toList.length s.toList)

/-- Lexicographic `≤` on character lists by code point, as Python compares
strings. -/
def charsLe : List Char → List Char → Bool
  | [], _ => true
  | _ :: _, [] => false
  | a :: as, b :: bs => if a = b then charsLe as bs else decide (a < b)

/-- Insert into a `charsLe`-sorted list of strings. -/
def insertSorted (x : String) : List String → List String
  | [] => [x]
  | y :: ys => if charsLe x.toList y.toList then x :: y :: ys else y :: insertSorted x ys

/-- Python `sorted` on a list of strings (ascending code-point order). -/
def pySorted (l : List String) : List String :=
  l.foldr insertSorted []

/-! ## A model of `pathlib.PurePosixPath`

A parsed path is a flag saying whether the path is absolute plus the list of
its components.  Parsing drops empty components and `"."` components, exactly
as `pathlib` normalization does (`Path("./a//b") == Path("a/b")`);
`".."` components are kept. -/

structure PyPath where
  absolute : Bool
  parts : List String
deriving DecidableEq, Repr

/-- The component list of a path string, after `pathlib` normalization. -/
def pathParts (s : String) : List String :=
  (pySplitChar s '/').filter (fun p => !(p == "" || p == "."))

/-- `pathlib.Path(s)`. -/
def PyPath.parse (s : String) : PyPath :=
  ⟨strStartsWith s "/", pathParts s⟩

/-- `str(p)` for a `pathlib` path: components joined by `/`, the empty relative
path printed as `"."`. -/
def PyPath.toStr (p : PyPath) : String :=
  if p.absolute then "/" ++ String.intercalate "/" p.parts
  else if p.parts.isEmpty then "." else String.intercalate "/" p.parts

/-- `p.parent`: drop the last component (`Path("a").parent == Path(".")`). -/
def PyPath.parent (p : PyPath) : PyPath :=
  ⟨p.absolute, p.parts.dropLast⟩

/-- `p / s`: append the parsed components of `s` unless `s` is absolute, in
which case the result is `Path(s)`. -/
def PyPath.div (p : PyPath) (s : String) : PyPath :=
  let q := PyPath.parse s
  if q.absolute then q else ⟨p.absolute, p.parts ++ q.parts⟩

/-- `p.name`: the final component; `""` for the empty path and for `".."`. -/
def PyPath.name (p : PyPath) : String :=
  let n := p.parts.getLastD ""
  if n = ".." then "" else n

/-- The index of the last occurrence of `c` in `cs`, if any. -/
def lastIdxOf (c : Char) (cs : List Char) : Option Nat :=
  ((List.range cs.length).filter (fun i => cs.getD i ' ' = c)).getLast?

/-- `pathlib` stem of a file name: the name with its suffix removed, where the
suffix starts at the last dot provided that dot is neither the first nor the
last character of the name. -/
def pyNameStem (n : String) : String :=
  let cs := n.toList
  match lastIdxOf '.' cs with
  | none => n
  | some i => if 0 < i ∧ i < cs.length - 1 then String.mk (cs.take i) else n

/-- `p.stem`. -/
def PyPath.stem (p : PyPath) : String :=
  pyNameStem p.name

/-- `p.with_suffix(suf)`: replace the suffix of the final component. -/
def PyPath.withSuffix (p : PyPath) (suf : String) : PyPath :=
  ⟨p.absolute, p.parts.dropLast ++ [pyNameStem p.name ++ suf]⟩

/-- `os.path.join(a, b)` for POSIX paths and two arguments. -/
def osPathJoin (a b : String) : String :=
  if strStartsWith b "/" then b
  else if a == "" || strEndsWith a "/" then a ++ b
  else a ++ "/" ++ b

/-- `os.path.basename(s)`: everything after the final `/` (no normalization). -/
def osBasename (s : String) : String :=
  (pySplitChar s '/').getLastD s

/-! ## The configuration dictionary

`self.config` is a Python dict.  We model the values that the graph compiler
reads: strings, booleans and lists of strings.  `cfgTruthy` is Python
truthiness (`config.get(k)` used as a condition): an absent key, `False`, the
empty string and the empty list are all falsy.  Keys that the code accesses by
subscript (`config["buildVariable"]`) are filled with defaults by `GFBuilder`
before `NinjaBuilder.build` runs, so reading an absent key as falsy / empty is
faithful to the executions the claims quantify over. -/

inductive CfgVal where
  | str (s : String)
  | bool (b : Bool)
  | strs (l : List String)
deriving DecidableEq, Repr

def CfgVal.truthy : CfgVal → Bool
  | .str s => !(s == "")
  | .bool b => b
  | .strs l => !l.isEmpty

def Config : Type := List (String × CfgVal)

instance : DecidableEq Config := by
  unfold Config; infer_instance

instance : Repr Config := by
  unfold Config; infer_instance

deriving instance DecidableEq for Except

/-- `config.get(k)` (first binding wins, as a dict has unique keys). -/
def cfgGet (c : Config) (k : String) : Option CfgVal :=
  (c.find? (fun kv => kv.1 == k)).map (fun kv => kv.2)

/-- Python `k in config`. -/
def cfgHas (c : Config) (k : String) : Bool :=
  (cfgGet c k).isSome

/-- Python `if config.get(k):` / `if config[k]:` (absent key falsy). -/
def cfgTruthy (c : Config) (k : String) : Bool :=
  ((cfgGet c k).map CfgVal.truthy).getD false

/-- `config[k]` read as a string (absent or non-string read as `""`). -/
def cfgStr (c : Config) (k : String) : String :=
  match cfgGet c k with
  | some (.str s) => s
  | _ => ""

/-- `config[k]` read as a list of strings. -/
def cfgStrs (c : Config) (k : String) : List String :=
  match cfgGet c k with
  | some (.strs l) => l
  | some (.str s) => [s]
  | _ => []

/-- `config[k] = v`: a dict update, modelled by shadowing the old binding. -/
def cfgSet (c : Config) (k : String) (v : CfgVal) : Config :=
  (k, v) :: c

/-! ## Edges and builder state

One `self.w.build(outputs, rule, inputs, implicit=..., variables=...)` call of
`ninja_syntax.Writer` becomes one `Edge`.  Variable values that are Python
lists are joined with spaces after dropping empty entries, as
`ninja_syntax.Writer.variable` does. -/

structure Edge where
  outputs : List String
  rule : String
  inputs : List String
  implicit : List String
  vars : List (String × String)
deriving DecidableEq, Repr

structure BuilderState where
  edges : List Edge
  temporaries : List String
deriving DecidableEq, Repr

/-! ## Designspace documents and source files -/

/-- One `<axis>` of a designspace document. -/
structure Axis where
  tag : String
  axisName : String
deriving DecidableEq, Repr

/-- One `<instance>` of a designspace document. -/
structure InstanceDesc where
  instName : String
  filename : String
deriving DecidableEq, Repr

/-- The part of a `DesignSpaceDocument` that the graph compiler reads. -/
structure Designspace where
  axes : List Axis
  sources : List String
  instances : List InstanceDesc
deriving DecidableEq, Repr

/-! ## `NinjaBuilder`, translated method by method -/

/-- `ninja.py` line 13: the configuration keys the ninja builder cannot
express. -/
def UNSUPPORTED : List String :=
  ["stylespaceFile", "statFormat4", "ttfaUseScript", "vttSources"]

/-- The head of `NinjaBuilder.build` (lines 17-28): scan the unsupported keys
with `self.config.get(key)` truthiness and raise `NotImplementedError` before
anything else; only if no truthy unsupported key exists is
`open("build.ninja", "w")` reached and `self.temporaries = []` initialized. -/
inductive BuildStartResult where
  | fallback
  | openedGraphFile (st : BuilderState)
deriving DecidableEq, Repr

/-- Lines 19-28 of `NinjaBuilder.build`: the unsupported-key scan followed, on
success, by the creation of the graph description file and the empty builder
state. -/
def buildStart (config : Config) : BuildStartResult :=
  if UNSUPPORTED.any (fun k => cfgTruthy config k) then .fallback
  else .openedGraphFile ⟨[], []⟩

/-- `NinjaBuilder.fontmake_args` (lines 131-142).  The `args` dict carries at
most an `output_dir` and an `output_path` entry. -/
def fontmakeArgs (config : Config) (outputDir outputPath : Option String) : String :=
  String.intercalate " "
    (["--filter ..."]
      ++ (if cfgTruthy config "flattenComponents" then ["--filter FlattenComponentsFilter"] else [])
      ++ (if cfgTruthy config "decomposeTransformedComponents" then ["--filter DecomposeTransformedComponentsFilter"] else [])
      ++ (match outputDir with | some d => ["--output-dir " ++ d] | none => [])
      ++ (match outputPath with | some p => ["--output-path " ++ p] | none => []))

/-- The sorted, comma-joined axis-tag key of a designspace
(`build_variable` lines 150-151). -/
def axisTagsStr (designspace : Designspace) : String :=
  String.intercalate "," (pySorted (designspace.axes.map Axis.tag))

/-- The variable-font target of one designspace (`build_variable` lines
152-155): `os.path.join(config["vfDir"], Path(designspace_path).stem +
"[" + axis_tags + "].ttf")`. -/
def vfTarget (config : Config) (designspacePath : String) (designspace : Designspace) : String :=
  osPathJoin (cfgStr config "vfDir")
    ((PyPath.parse designspacePath).stem ++ "[" ++ axisTagsStr designspace ++ "].ttf")

/-- The `self.w.build(target, "variable", designspace_path, variables=...)`
call of `build_variable` (lines 156-163). -/
def varEdge (config : Config) (designspacePath : String) (designspace : Designspace) : Edge :=
  { outputs := [vfTarget config designspacePath designspace]
    rule := "variable"
    inputs := [designspacePath]
    implicit := []
    vars := [("fontmake_args",
              fontmakeArgs config none (some (vfTarget config designspacePath designspace)))] }

/-- The `axisOrder` default computed by `gen_stat` (lines 175-180): when the
config has no `axisOrder` key, it is set to the split axis-tag list, with
`"ital"` appended when any designspace path contains `"italic"`
case-insensitively. -/
def genStatConfig (config : Config) (designspaces : List (String × Designspace))
    (axisTags : String) : Config :=
  if cfgHas config "axisOrder" then config
  else
    cfgSet config "axisOrder"
      (CfgVal.strs
        (if designspaces.any (fun x => strHasSub (strToLower x.1) "italic")
         then pySplitChar axisTags ',' ++ ["ital"]
         else pySplitChar axisTags ','))

/-- Join a list-valued ninja variable the way `ninja_syntax.Writer.variable`
does: empty entries are dropped and the rest joined with spaces. -/
def ninjaJoin (l : List String) : String :=
  String.intercalate " " (l.filter (fun s => !(s == "")))

/-- The `self.w.build(stampfile, "genstat", targets, variables=...)` call of
`gen_stat` (lines 191-200). -/
def genStatEdge (config : Config) (targets : List String) (stampfile : String) : Edge :=
  { outputs := [stampfile]
    rule := "genstat"
    inputs := targets
    implicit := []
    vars := [("axis_order", ninjaJoin (cfgStrs config "axisOrder")),
             ("other_args", if cfgHas config "stat" then "--src " ++ cfgStr config "stat" else ""),
             ("stampfile", stampfile)] }

/-- `NinjaBuilder.gen_stat` (lines 173-202).  Reads and possibly updates
`self.config` (the `axisOrder` default), raises `ValueError` when a
`stylespaceFile` or `statFormat4` key is present, indexes `targets[0]`
(an `IndexError` when the target list is empty), records the stamp file in
`self.temporaries` and emits the one `genstat` edge.  Returns the updated
config, the updated builder state and the stamp file. -/
def genStat (config : Config) (designspaces : List (String × Designspace))
    (st : BuilderState) (axisTags : String) (targets : List String) :
    Except String (Config × BuilderState × String) :=
  let config2 := genStatConfig config designspaces axisTags
  if cfgHas config2 "stylespaceFile" || cfgHas config2 "statFormat4" then
    Except.error "ValueError: Stylespace files / statFormat4 not supported in Ninja mode"
  else
    match targets with
    | [] => Except.error "IndexError: list index out of range"
    | t :: _ =>
      Except.ok (config2,
        { edges := st.edges ++ [genStatEdge config2 targets (t ++ ".statstamp")]
          temporaries := st.temporaries ++ [t ++ ".statstamp"] },
        t ++ ".statstamp")

/-- The `self.w.build(file + ".fixstamp", "fix", file, implicit=..., variables=...)`
call of `post_process` (lines 209-211). -/
def fixEdge (config : Config) (file : String) (implicit : Option String) : Edge :=
  { outputs := [file ++ ".fixstamp"]
    rule := "fix"
    inputs := [file]
    implicit := implicit.toList
    vars := if cfgTruthy config "includeSourceFixes"
            then [("fixargs", "--include-source-fixes")] else [] }

/-- `NinjaBuilder.post_process` (lines 204-211): record `file + ".fixstamp"`
in `self.temporaries` and emit the always-run fix edge, with the given
implicit input. -/
def postProcess (config : Config) (st : BuilderState) (file : String)
    (implicit : Option String) : BuilderState :=
  { edges := st.edges ++ [fixEdge config file implicit]
    temporaries := st.temporaries ++ [file ++ ".fixstamp"] }

/-- `NinjaBuilder.build_variable` (lines 144-171): emit one `variable` edge
per designspace, collect the variable targets, call `gen_stat` once on the
whole target list (with the *last* designspace's axis-tag string, the leaked
loop variable), then post-process every target with the STAT stamp file as the
implicit input.  An empty designspace list raises `NameError` at the
`gen_stat` call site because the loop variable `axis_tags` was never bound. -/
def buildVariable (config : Config) (designspaces : List (String × Designspace))
    (st : BuilderState) : Except String (Config × BuilderState) :=
  match designspaces with
  | [] => Except.error "NameError: name axis_tags is not defined"
  | d :: ds =>
    match genStat config (d :: ds)
        { st with edges := st.edges ++ (d :: ds).map (fun pd => varEdge config pd.1 pd.2) }
        (axisTagsStr ((d :: ds).getLastD d).2)
        ((d :: ds).map (fun pd => vfTarget config pd.1 pd.2)) with
    | Except.error e => Except.error e
    | Except.ok (config2, st2, stampfile) =>
      Except.ok (config2,
        ((d :: ds).map (fun pd => vfTarget config pd.1 pd.2)).foldl
          (fun s t => postProcess config2 s t (some stampfile)) st2)

/-- `NinjaBuilder._instance_ufo_filenames` (lines 213-222): for each instance,
`Path(fn)` when the declared filename contains a `/`, else
`Path(path).parent / fn`. -/
def instanceUfoFilenames (path : String) (designspace : Designspace) : List PyPath :=
  designspace.instances.map (fun inst =>
    if strContainsChar inst.filename '/' then PyPath.parse inst.filename
    else (PyPath.parse path).parent.div inst.filename)

/-- The `self.w.build([str(i) for i in ...], "instanceufo", path)` call of
`build_static` (lines 232-236). -/
def instanceUfoEdge (path : String) (designspace : Designspace) : Edge :=
  { outputs := (instanceUfoFilenames path designspace).map PyPath.toStr
    rule := "instanceufo"
    inputs := [path]
    implicit := []
    vars := [] }

/-- The interpolation half of `NinjaBuilder.build_static` (lines 224-237): one
`instanceufo` edge per designspace (the method then delegates to
`GFBuilder.build_static`, which drives the per-format compilation). -/
def buildStaticInterpolation (designspaces : List (String × Designspace))
    (st : BuilderState) : BuilderState :=
  designspaces.foldl
    (fun s pd => { s with edges := s.edges ++ [instanceUfoEdge pd.1 pd.2] }) st

/-- A static TTF compile target of `build_a_static_format` (line 255):
`str(Path(target_dir) / ufo.with_suffix(".ttf").name)` with
`target_dir = config["ttDir"]`. -/
def staticTTFTarget (config : Config) (ufo : PyPath) : String :=
  ((PyPath.parse (cfgStr config "ttDir")).div (ufo.withSuffix ".ttf").name).toStr

/-- The `self.w.build(filename + ".autohintstamp", "autohint", filename)` call
of `post_process_ttf` (line 270). -/
def autohintEdge (filename : String) : Edge :=
  { outputs := [filename ++ ".autohintstamp"]
    rule := "autohint"
    inputs := [filename]
    implicit := []
    vars := [] }

/-- The `self.w.build(webfont_filename, "webfont", filename, implicit=...)`
call of `post_process_ttf` (lines 276-281): the output path is
`filename.replace(".ttf", ".woff2").replace(config["ttDir"], config["woffDir"])`
— a global substring replacement, applied suffix first, directory second. -/
def webfontEdge (config : Config) (filename : String) : Edge :=
  { outputs := [pyReplace (pyReplace filename ".ttf" ".woff2")
                  (cfgStr config "ttDir") (cfgStr config "woffDir")]
    rule := "webfont"
    inputs := [filename]
    implicit := [filename ++ ".fixstamp"]
    vars := [] }

/-- `NinjaBuilder.post_process_ttf` (lines 266-281).  When `autohintTTF` is
truthy: raise `NotImplementedError` if `ttfaUseScript` is truthy, otherwise
emit the autohint edge, record its stamp and run `post_process` with the
autohint stamp as implicit input; when `autohintTTF` is falsy run
`post_process` with no implicit input.  Finally, when `buildWebfont` is
truthy, emit the webfont edge. -/
def postProcessTTF (config : Config) (st : BuilderState) (filename : String) :
    Except String BuilderState :=
  match
    (if cfgTruthy config "autohintTTF" then
      if cfgTruthy config "ttfaUseScript" then
        Except.error "NotImplementedError: ttaUseScript not supported in ninja mode"
      else
        Except.ok (postProcess config
          { edges := st.edges ++ [autohintEdge filename]
            temporaries := st.temporaries ++ [filename ++ ".autohintstamp"] }
          filename (some (filename ++ ".autohintstamp")))
    else Except.ok (postProcess config st filename none)) with
  | Except.error e => Except.error e
  | Except.ok st2 =>
    Except.ok (if cfgTruthy config "buildWebfont" then
      { st2 with edges := st2.edges ++ [webfontEdge config filename] }
    else st2)

/-- The cleanup loop at the end of `NinjaBuilder.build` (lines 49-52):

    for temporary in self.temporaries:
        if os.file.exists(temporary):
            os.remove(temporary)

The `os` module has no attribute `file` (the intended call is
`os.path.exists`), so the first loop iteration raises `AttributeError` before
any existence check or removal; with an empty `temporaries` list the loop body
never runs and the build finishes.  `existing` is the set of paths present on
disk; the result is the surviving set. -/
def cleanupTemporaries (temporaries existing : List String) :
    Except String (List String) :=
  match temporaries with
  | [] => Except.ok existing
  | _ :: _ => Except.error "AttributeError: module os has no attribute file"

/-- The cleanup the documentation describes (claim C4): remove every recorded
stamp file that still exists, silently skipping absent ones. -/
def cleanupIntended (temporaries existing : List String) : List String :=
  existing.filter (fun f => !temporaries.contains f)

/-! ## `InstantiateUFO` (`operations/instantiateUfo.py`)

The operation binds its recipe entry (`self.original`, a dict) and its first
upstream source.  Only the pieces of the `OperationBase` protocol that
`instantiateUfo.py` itself uses are modelled: the source exposes a path, its
instance list, and whether it is a Glyphs file. -/

structure SourceFile where
  path : String
  instances : List InstanceDesc
  isGlyphs : Bool
deriving DecidableEq, Repr

structure InstantiateUFO where
  original : Config
  firstSource : SourceFile
deriving DecidableEq, Repr

/-- `InstantiateUFO.relevant_instance` (lines 27-33): the first instance of
the upstream source whose name equals `original["instance_name"]`, if any. -/
def InstantiateUFO.relevantInstance (op : InstantiateUFO) : Option InstanceDesc :=
  match op.firstSource.instances.filter
      (fun i => i.instName == cfgStr op.original "instance_name") with
  | [] => none
  | i :: _ => some i

/-- `InstantiateUFO.validate` (lines 16-25): require an `instance_name` key,
and, absent an explicit `target` override, require that the named instance
exists in the upstream source. -/
def InstantiateUFO.validate (op : InstantiateUFO) : Except String Unit :=
  if !cfgHas op.original "instance_name" then
    Except.error "ValueError: No instance name specified"
  else if !cfgHas op.original "target" && (op.relevantInstance).isNone then
    Except.error ("ValueError: Instance " ++ cfgStr op.original "instance_name"
      ++ " not found in " ++ op.firstSource.path)
  else Except.ok ()

/-- `InstantiateUFO.targets` (lines 35-44): an explicit `target` override wins;
otherwise the target is derived from the relevant instance's filename (under
`instance_ufos/` for a Glyphs upstream).  A missing instance or filename is an
`AssertionError`. -/
def InstantiateUFO.targetsOf (op : InstantiateUFO) : Except String (List String) :=
  if cfgHas op.original "target" then Except.ok [cfgStr op.original "target"]
  else
    match op.relevantInstance with
    | none => Except.error "AssertionError: instance is not None"
    | some inst =>
      if op.firstSource.isGlyphs then
        Except.ok ["instance_ufos/" ++ osBasename inst.filename]
      else Except.ok [inst.filename]

/-- `InstantiateUFO.set_target` (lines 54-55): unconditionally
`raise ValueError("Cannot set target on InstantiateUFO")`. -/
def InstantiateUFO.setTarget (op : InstantiateUFO) (t : String) :
    Except String InstantiateUFO :=
  Except.error "Cannot set target on InstantiateUFO"

/-! ## Invariant vocabulary and concrete fixtures for the claims -/

/-- The rules whose edges output transient stamp files: `genstat` outputs the
`.statstamp`, `fix` the `.fixstamp`, `autohint` the `.autohintstamp`. -/
def stampRules : List String := ["genstat", "fix", "autohint"]

/-- Every output of a stamp-producing edge is recorded in the builder's
`temporaries` list. -/
def stampInv (st : BuilderState) : Prop :=
  ∀ e ∈ st.edges, e.rule ∈ stampRules → ∀ o ∈ e.outputs, o ∈ st.temporaries

/-- The edges emitted by `post_process_ttf` from a fresh state (used to state
counterexamples concretely). -/
def runPPT (config : Config) (filename : String) : List Edge :=
  match postProcessTTF config ⟨[], []⟩ filename with
  | Except.ok st => st.edges
  | Except.error _ => []

/-- A configuration with the variable stage's knobs set, no unsupported keys
and no `axisOrder` override. -/
def cfgFam : Config :=
  [("vfDir", CfgVal.str "fonts/variable"), ("includeSourceFixes", CfgVal.bool true),
   ("buildVariable", CfgVal.bool true)]

/-- A one-axis designspace for the `Family` sources. -/
def dsFam : String × Designspace :=
  ("Family.designspace", ⟨[⟨"wght", "Weight"⟩], ["Family-Regular.ufo"], []⟩)

/-- A configuration carrying `statFormat4: false` — the unsupported key is
present but falsy. -/
def cfgStat4False : Config :=
  [("statFormat4", CfgVal.bool false), ("buildVariable", CfgVal.bool true)]

/-- A configuration with a truthy `vttSources` entry. -/
def cfgVtt : Config :=
  [("vttSources", CfgVal.strs ["Family-Regular.ttx"])]

/-- Hinting enabled, webfont packaging off. -/
def cfgHint : Config :=
  [("autohintTTF", CfgVal.bool true)]

/-- Webfont packaging with a TTF directory string that recurs inside the font
file name. -/
def cfgWeb : Config :=
  [("ttDir", CfgVal.str "tt"), ("woffDir", CfgVal.str "woff"),
   ("buildWebfont", CfgVal.bool true)]

/-- Webfont packaging with the stock directory layout, hinting enabled. -/
def cfgWebStock : Config :=
  [("ttDir", CfgVal.str "fonts/ttf"), ("woffDir", CfgVal.str "fonts/webfonts"),
   ("buildWebfont", CfgVal.bool true), ("autohintTTF", CfgVal.bool true)]

/-- A designspace with an instance whose declared filename contains a path
separator but is not in `pathlib` normal form. -/
def dsDotSlash : Designspace :=
  ⟨[], [], [⟨"Light", "./Light.ufo"⟩]⟩

/-- The spec's static-stage scenario: two instances with relative filenames
inside `master/Family.designspace`'s directory. -/
def dsMaster : Designspace :=
  ⟨[], [], [⟨"Light", "Light.ufo"⟩, ⟨"Black", "Black.ufo"⟩]⟩

/-- An `InstantiateUFO` whose target is structurally derived (no `target`
override in its recipe entry). -/
def opLight : InstantiateUFO :=
  ⟨[("instance_name", CfgVal.str "Light")],
   ⟨"Family.designspace", [⟨"Light", "Light.ufo"⟩], false⟩⟩

/-! ## Helper lemmas -/

/-- Folding `post_process` over a target list appends one fix edge and one
fixstamp per target, in order. -/
theorem postProcess_foldl (config : Config) (impl : Option String) (ts : List String) :
    ∀ st : BuilderState,
      ts.foldl (fun s t => postProcess config s t impl) st =
        { edges := st.edges ++ ts.map (fun t => fixEdge config t impl)
          temporaries := st.temporaries ++ ts.map (fun t => t ++ ".fixstamp") } := by
  induction ts with
  | nil => intro st; simp
  | cons t ts ih =>
      intro st
      rw [List.foldl_cons, ih (postProcess config st t impl)]
      simp [postProcess, List.append_assoc]

/-- `gen_stat`'s `axisOrder` default only touches the `axisOrder` key. -/
theorem cfgHas_genStatConfig (config : Config) (dss : List (String × Designspace))
    (tags k : String) (hk : ("axisOrder" == k) = false) :
    cfgHas (genStatConfig config dss tags) k = cfgHas config k := by
  unfold genStatConfig
  split
  · rfl
  · simp only [cfgSet, cfgHas, cfgGet, List.find?, hk]

/-- `gen_stat` on a non-empty target list, with neither `stylespaceFile` nor
`statFormat4` present, emits exactly the one `genstat` edge and records the
stamp file. -/
theorem genStat_ok (config : Config) (dss : List (String × Designspace))
    (st : BuilderState) (tags t : String) (ts : List String)
    (h1 : cfgHas config "stylespaceFile" = false)
    (h2 : cfgHas config "statFormat4" = false) :
    genStat config dss st tags (t :: ts) =
      Except.ok (genStatConfig config dss tags,
        { edges := st.edges ++ [genStatEdge (genStatConfig config dss tags) (t :: ts) (t ++ ".statstamp")]
          temporaries := st.temporaries ++ [t ++ ".statstamp"] },
        t ++ ".statstamp") := by
  unfold genStat
  have hA : cfgHas (genStatConfig config dss tags) "stylespaceFile" = false := by
    rw [cfgHas_genStatConfig config dss tags "stylespaceFile" (by decide)]; exact h1
  have hB : cfgHas (genStatConfig config dss tags) "statFormat4" = false := by
    rw [cfgHas_genStatConfig config dss tags "statFormat4" (by decide)]; exact h2
  simp [hA, hB]

/-- Normal form of `build_variable` on a non-empty designspace list from a
fresh builder state. -/
theorem buildVariable_eq (config : Config) (d : String × Designspace)
    (ds : List (String × Designspace))
    (h1 : cfgHas config "stylespaceFile" = false)
    (h2 : cfgHas config "statFormat4" = false) :
    buildVariable config (d :: ds) ⟨[], []⟩ =
      Except.ok (genStatConfig config (d :: ds) (axisTagsStr ((d :: ds).getLastD d).2),
        { edges :=
            (d :: ds).map (fun pd => varEdge config pd.1 pd.2)
              ++ [genStatEdge (genStatConfig config (d :: ds) (axisTagsStr ((d :: ds).getLastD d).2))
                    ((d :: ds).map (fun pd => vfTarget config pd.1 pd.2))
                    (vfTarget config d.1 d.2 ++ ".statstamp")]
              ++ ((d :: ds).map (fun pd => vfTarget config pd.1 pd.2)).map
                   (fun t => fixEdge (genStatConfig config (d :: ds) (axisTagsStr ((d :: ds).getLastD d).2))
                     t (some (vfTarget config d.1 d.2 ++ ".statstamp")))
          temporaries :=
            [vfTarget config d.1 d.2 ++ ".statstamp"]
              ++ ((d :: ds).map (fun pd => vfTarget config pd.1 pd.2)).map
                   (fun t => t ++ ".fixstamp") }) := by
  simp only [buildVariable, List.map_cons]
  rw [genStat_ok config (d :: ds) _ _ _ _ h1 h2]
  simp only [postProcess_foldl, List.map_cons, List.nil_append, List.append_assoc,
    List.singleton_append, List.cons_append]

/-! ## Claim theorems -/

/-- C1: for every build with the variable-font stage enabled (a non-empty
resolved designspace list, no `stylespaceFile`/`statFormat4` key),
`build_variable` emits exactly one table-generation (`genstat`) edge; its
input list is exactly the list of all variable-font targets collected for the
family, its output is the STAT stamp file, recorded as a transient StampFile,
and that stamp file is an implicit input of every per-variable-font fix edge,
so no post-processing edge can be scheduled before table generation
completes. -/
theorem c1_genstat_fan_in_fan_out (config : Config) (d : String × Designspace)
    (ds : List (String × Designspace))
    (h1 : cfgHas config "stylespaceFile" = false)
    (h2 : cfgHas config "statFormat4" = false) :
    ∃ config2 st,
      buildVariable config (d :: ds) ⟨[], []⟩ = Except.ok (config2, st) ∧
      (st.edges.filter (fun e => e.rule == "genstat")).length = 1 ∧
      (∀ e ∈ st.edges, e.rule = "genstat" →
        e.inputs = (d :: ds).map (fun pd => vfTarget config pd.1 pd.2) ∧
        e.outputs = [vfTarget config d.1 d.2 ++ ".statstamp"]) ∧
      vfTarget config d.1 d.2 ++ ".statstamp" ∈ st.temporaries ∧
      (∀ t ∈ (d :: ds).map (fun pd => vfTarget config pd.1 pd.2),
        ∃ e ∈ st.edges, e.rule = "fix" ∧ e.inputs = [t] ∧
          vfTarget config d.1 d.2 ++ ".statstamp" ∈ e.implicit) ∧
      (∀ e ∈ st.edges, e.rule = "fix" →
        e.implicit = [vfTarget config d.1 d.2 ++ ".statstamp"]) := by
  refine ⟨_, _, buildVariable_eq config d ds h1 h2, ?_, ?_, ?_, ?_, ?_⟩
  · have hA : ((d :: ds).map (fun pd => varEdge config pd.1 pd.2)).filter
        (fun e => e.rule == "genstat") = [] := by
      rw [List.filter_eq_nil_iff]
      intro e he
      rcases List.mem_map.mp he with ⟨pd, _, rfl⟩
      simp [varEdge]
    have hF : (((d :: ds).map (fun pd => vfTarget config pd.1 pd.2)).map
        (fun t => fixEdge (genStatConfig config (d :: ds) (axisTagsStr ((d :: ds).getLastD d).2))
          t (some (vfTarget config d.1 d.2 ++ ".statstamp")))).filter
        (fun e => e.rule == "genstat") = [] := by
      rw [List.filter_eq_nil_iff]
      intro e he
      rcases List.mem_map.mp he with ⟨t, _, rfl⟩
      simp [fixEdge]
    rw [List.filter_append, List.filter_append, hA, hF]
    simp [genStatEdge]
  · intro e he hr
    rcases List.mem_append.mp he with he | he
    · rcases List.mem_append.mp he with he | he
      · rcases List.mem_map.mp he with ⟨pd, _, rfl⟩
        exact absurd hr (by simp [varEdge])
      · rw [List.mem_singleton] at he
        subst he
        exact ⟨rfl, rfl⟩
    · rcases List.mem_map.mp he with ⟨t, _, rfl⟩
      exact absurd hr (by simp [fixEdge])
  · exact List.mem_append_left _ (List.mem_singleton.mpr rfl)
  · intro t ht
    refine ⟨fixEdge (genStatConfig config (d :: ds) (axisTagsStr ((d :: ds).getLastD d).2))
      t (some (vfTarget config d.1 d.2 ++ ".statstamp")), ?_, rfl, rfl, ?_⟩
    · exact List.mem_append_right _ (List.mem_map.mpr ⟨t, ht, rfl⟩)
    · exact List.mem_singleton.mpr rfl
  · intro e he hr
    rcases List.mem_append.mp he with he | he
    · rcases List.mem_append.mp he with he | he
      · rcases List.mem_map.mp he with ⟨pd, _, rfl⟩
        exact absurd hr (by simp [varEdge])
      · rw [List.mem_singleton] at he
        subst he
        exact absurd hr (by simp [genStatEdge])
    · rcases List.mem_map.mp he with ⟨t, _, rfl⟩
      rfl

/-- Witness for C1 at a one-designspace family. -/
theorem c1_genstat_fan_in_fan_out_witness :
    cfgHas cfgFam "stylespaceFile" = false ∧ cfgHas cfgFam "statFormat4" = false ∧
    (∃ config2 st,
      buildVariable cfgFam [dsFam] ⟨[], []⟩ = Except.ok (config2, st) ∧
      (st.edges.filter (fun e => e.rule == "genstat")).length = 1 ∧
      (∀ e ∈ st.edges, e.rule = "genstat" →
        e.inputs = [dsFam].map (fun pd => vfTarget cfgFam pd.1 pd.2) ∧
        e.outputs = [vfTarget cfgFam dsFam.1 dsFam.2 ++ ".statstamp"]) ∧
      vfTarget cfgFam dsFam.1 dsFam.2 ++ ".statstamp" ∈ st.temporaries ∧
      (∀ t ∈ [dsFam].map (fun pd => vfTarget cfgFam pd.1 pd.2),
        ∃ e ∈ st.edges, e.rule = "fix" ∧ e.inputs = [t] ∧
          vfTarget cfgFam dsFam.1 dsFam.2 ++ ".statstamp" ∈ e.implicit) ∧
      (∀ e ∈ st.edges, e.rule = "fix" →
        e.implicit = [vfTarget cfgFam dsFam.1 dsFam.2 ++ ".statstamp"])) :=
  ⟨by decide, by decide,
   c1_genstat_fan_in_fan_out cfgFam dsFam [] (by decide) (by decide)⟩

/-- C6: for every design description in the family, the variable-font target
of its compile edge is exactly the designspace file's stem followed by `[`,
the sorted and comma-joined axis tags, `]` and the `.ttf` extension, placed
under the configured variable-font directory. -/
theorem c6_variable_target_name (config : Config) (d : String × Designspace)
    (ds : List (String × Designspace)) (p : String) (dsp : Designspace)
    (h1 : cfgHas config "stylespaceFile" = false)
    (h2 : cfgHas config "statFormat4" = false)
    (hmem : (p, dsp) ∈ d :: ds) :
    ∃ config2 st,
      buildVariable config (d :: ds) ⟨[], []⟩ = Except.ok (config2, st) ∧
      ∃ e ∈ st.edges, e.rule = "variable" ∧ e.inputs = [p] ∧
        e.outputs = [osPathJoin (cfgStr config "vfDir")
          ((PyPath.parse p).stem ++ "[" ++
            String.intercalate "," (pySorted (dsp.axes.map Axis.tag)) ++ "].ttf")] := by
  refine ⟨_, _, buildVariable_eq config d ds h1 h2, ?_⟩
  refine ⟨varEdge config p dsp, ?_, rfl, rfl, rfl⟩
  exact List.mem_append_left _
    (List.mem_append_left _ (List.mem_map.mpr ⟨(p, dsp), hmem, rfl⟩))

/-- Witness for C6 on the `Family` designspace with one `wght` axis. -/
theorem c6_variable_target_name_witness :
    cfgHas cfgFam "stylespaceFile" = false ∧ cfgHas cfgFam "statFormat4" = false ∧
    ("Family.designspace", (⟨[⟨"wght", "Weight"⟩], ["Family-Regular.ufo"], []⟩ : Designspace)) ∈ [dsFam] ∧
    (∃ config2 st,
      buildVariable cfgFam [dsFam] ⟨[], []⟩ = Except.ok (config2, st) ∧
      ∃ e ∈ st.edges, e.rule = "variable" ∧ e.inputs = ["Family.designspace"] ∧
        e.outputs = [osPathJoin (cfgStr cfgFam "vfDir")
          ((PyPath.parse "Family.designspace").stem ++ "[" ++
            String.intercalate ","
              (pySorted ((⟨[⟨"wght", "Weight"⟩], ["Family-Regular.ufo"], []⟩ : Designspace).axes.map Axis.tag)) ++ "].ttf")]) :=
  ⟨by decide, by decide, by decide,
   c6_variable_target_name cfgFam dsFam [] "Family.designspace"
     ⟨[⟨"wght", "Weight"⟩], ["Family-Regular.ufo"], []⟩
     (by decide) (by decide) (by decide)⟩

/-- C2 counterexample: the configuration `{"statFormat4": False, "buildVariable": True}`
has a key of the unsupported-feature set present, yet the scan (which tests
`config.get(key)` for truthiness, not presence) does not abort, and the graph
description file is opened. -/
theorem c2_present_falsy_key_not_aborted :
    cfgHas cfgStat4False "statFormat4" = true ∧
    "statFormat4" ∈ UNSUPPORTED ∧
    buildStart cfgStat4False = BuildStartResult.openedGraphFile ⟨[], []⟩ := by
  decide

/-- C2 (amended): for every configuration in which a key of the
unsupported-feature set is present *with a truthy value*, the build raises
`NotImplementedError` before the graph description file is opened — the scan
is the first thing `build` does, so no partial graph file ever exists.  A key
present with a falsy value does not trigger the fallback. -/
theorem c2_truthy_unsupported_aborts (config : Config) (k : String)
    (hk : k ∈ UNSUPPORTED) (ht : cfgTruthy config k = true) :
    buildStart config = BuildStartResult.fallback := by
  unfold buildStart
  have h : UNSUPPORTED.any (fun k2 => cfgTruthy config k2) = true :=
    List.any_eq_true.mpr ⟨k, hk, ht⟩
  simp [h]

/-- Witness for the amended C2 on a truthy `vttSources` entry. -/
theorem c2_truthy_unsupported_aborts_witness :
    "vttSources" ∈ UNSUPPORTED ∧ cfgTruthy cfgVtt "vttSources" = true ∧
    buildStart cfgVtt = BuildStartResult.fallback :=
  ⟨by decide, by decide,
   c2_truthy_unsupported_aborts cfgVtt "vttSources" (by decide) (by decide)⟩

/-- Normal form of `post_process_ttf` when `ttfaUseScript` is falsy: the
optional autohint edge, the always-run fix edge (whose implicit input is the
autohint stamp exactly when hinting is on), and the optional webfont edge. -/
theorem postProcessTTF_eq (config : Config) (st : BuilderState) (filename : String)
    (h : cfgTruthy config "ttfaUseScript" = false) :
    postProcessTTF config st filename =
      Except.ok
        { edges := st.edges
            ++ (if cfgTruthy config "autohintTTF" then [autohintEdge filename] else [])
            ++ [fixEdge config filename
                  (if cfgTruthy config "autohintTTF"
                   then some (filename ++ ".autohintstamp") else none)]
            ++ (if cfgTruthy config "buildWebfont" then [webfontEdge config filename] else [])
          temporaries := st.temporaries
            ++ (if cfgTruthy config "autohintTTF" then [filename ++ ".autohintstamp"] else [])
            ++ [filename ++ ".fixstamp"] } := by
  unfold postProcessTTF
  rcases hA : cfgTruthy config "autohintTTF" with _ | _ <;>
    rcases hW : cfgTruthy config "buildWebfont" with _ | _ <;>
      simp [h, hA, hW, postProcess, List.append_assoc]

/-- C3: for every compiled TTF file, when the hinting toggle is enabled
(`ttfaUseScript` being falsy, as any truthy value aborts the whole ninja
build), the always-run fix edge emitted by `post_process_ttf` has the file's
autohint stamp file as its implicit input, and when hinting is disabled it
has no implicit input at all. -/
theorem c3_fix_after_hint (config : Config) (filename : String)
    (h : cfgTruthy config "ttfaUseScript" = false) :
    ∃ st, postProcessTTF config ⟨[], []⟩ filename = Except.ok st ∧
      (∃ e ∈ st.edges, e.rule = "fix" ∧ e.inputs = [filename]) ∧
      ∀ e ∈ st.edges, e.rule = "fix" →
        e.implicit = (if cfgTruthy config "autohintTTF" = true
                      then [filename ++ ".autohintstamp"] else []) := by
  refine ⟨_, postProcessTTF_eq config ⟨[], []⟩ filename h, ?_, ?_⟩
  · refine ⟨fixEdge config filename
      (if cfgTruthy config "autohintTTF" then some (filename ++ ".autohintstamp") else none),
      ?_, rfl, rfl⟩
    exact List.mem_append_left _
      (List.mem_append_right _ (List.mem_singleton.mpr rfl))
  · intro e he hr
    rcases List.mem_append.mp he with he | he
    · rcases List.mem_append.mp he with he | he
      · rcases hA : cfgTruthy config "autohintTTF" with _ | _
        · simp [hA] at he
        · simp [hA] at he
          subst he
          exact absurd hr (by simp [autohintEdge])
      · rw [List.mem_singleton] at he
        subst he
        rcases hA : cfgTruthy config "autohintTTF" with _ | _ <;>
          simp [fixEdge, hA, Option.toList]
    · rcases hW : cfgTruthy config "buildWebfont" with _ | _
      · simp [hW] at he
      · simp [hW] at he
        subst he
        exact absurd hr (by simp [webfontEdge])

/-- Witness for C3 with hinting enabled. -/
theorem c3_fix_after_hint_witness :
    cfgTruthy cfgHint "ttfaUseScript" = false ∧
    (∃ st, postProcessTTF cfgHint ⟨[], []⟩ "fonts/ttf/Family-Regular.ttf" = Except.ok st ∧
      (∃ e ∈ st.edges, e.rule = "fix" ∧ e.inputs = ["fonts/ttf/Family-Regular.ttf"]) ∧
      ∀ e ∈ st.edges, e.rule = "fix" →
        e.implicit = (if cfgTruthy cfgHint "autohintTTF" = true
                      then ["fonts/ttf/Family-Regular.ttf" ++ ".autohintstamp"] else [])) :=
  ⟨by decide, c3_fix_after_hint cfgHint "fonts/ttf/Family-Regular.ttf" (by decide)⟩

/-- C4: the claim describes the intended cleanup (remove every recorded stamp
file that still exists, a file already absent not being an error), but the
code evaluates `os.file.exists` — the `os` module has no attribute `file`
(the intended spelling is `os.path.exists`) — so the first iteration of the
cleanup loop raises `AttributeError`: with any non-empty recorded stamp list
no stamp file is removed at all, diverging from the claim, while the intended
cleanup would have removed the existing stamp. -/
theorem c4_cleanup_crashes :
    cleanupTemporaries ["fonts/ttf/Family-Regular.ttf.fixstamp"]
        ["fonts/ttf/Family-Regular.ttf.fixstamp", "fonts/ttf/Family-Regular.ttf"] =
      Except.error "AttributeError: module os has no attribute file" ∧
    cleanupIntended ["fonts/ttf/Family-Regular.ttf.fixstamp"]
        ["fonts/ttf/Family-Regular.ttf.fixstamp", "fonts/ttf/Family-Regular.ttf"] =
      ["fonts/ttf/Family-Regular.ttf"] ∧
    cleanupTemporaries [] [] = Except.ok [] := by
  decide

/-- C5 counterexample: with `ttDir = "tt"`, `woffDir = "woff"` and the TTF
compile target `tt/Matt.ttf` (produced for the instance UFO `Matt.ufo`), the
webfont edge's output is `woff/Mawoff.woff2` — the global substring
replacement also rewrites the `tt` inside `Matt` — and not the
`woff/Matt.woff2` that replacing only the directory prefix and the format
suffix would give. -/
theorem c5_counterexample :
    staticTTFTarget cfgWeb (PyPath.parse "Matt.ufo") = "tt/Matt.ttf" ∧
    (∃ e ∈ runPPT cfgWeb "tt/Matt.ttf", e.rule = "webfont" ∧
      e.outputs = ["woff/Mawoff.woff2"]) ∧
    (∀ e ∈ runPPT cfgWeb "tt/Matt.ttf", e.rule = "webfont" →
      e.outputs ≠ ["woff/Matt.woff2"]) := by
  decide

/-- C5 (amended): for every TTF compile target with web-format packaging
enabled, the emitted webfont edge's output path equals the fix edge's target
with every occurrence of `.ttf` replaced by `.woff2` and then every
occurrence of the configured TTF directory string replaced by the configured
webfont directory string (a global substring replacement, which coincides
with the prefix/suffix substitution exactly when those substrings occur
nowhere else in the path), and the webfont edge has the file's fix stamp as
its implicit input. -/
theorem c5_webfont_edge (config : Config) (filename : String)
    (h : cfgTruthy config "ttfaUseScript" = false)
    (hw : cfgTruthy config "buildWebfont" = true) :
    ∃ st, postProcessTTF config ⟨[], []⟩ filename = Except.ok st ∧
      (∃ e ∈ st.edges, e.rule = "webfont" ∧ e.inputs = [filename] ∧
        e.outputs = [pyReplace (pyReplace filename ".ttf" ".woff2")
          (cfgStr config "ttDir") (cfgStr config "woffDir")] ∧
        e.implicit = [filename ++ ".fixstamp"]) ∧
      (∀ e ∈ st.edges, e.rule = "webfont" →
        e.outputs = [pyReplace (pyReplace filename ".ttf" ".woff2")
          (cfgStr config "ttDir") (cfgStr config "woffDir")] ∧
        e.implicit = [filename ++ ".fixstamp"]) := by
  refine ⟨_, postProcessTTF_eq config ⟨[], []⟩ filename h, ?_, ?_⟩
  · refine ⟨webfontEdge config filename, ?_, rfl, rfl, rfl, rfl⟩
    apply List.mem_append_right
    simp [hw]
  · intro e he hr
    rcases List.mem_append.mp he with he | he
    · rcases List.mem_append.mp he with he | he
      · rcases hA : cfgTruthy config "autohintTTF" with _ | _
        · simp [hA] at he
        · simp [hA] at he
          subst he
          exact absurd hr (by simp [autohintEdge])
      · rw [List.mem_singleton] at he
        subst he
        exact absurd hr (by simp [fixEdge])
    · simp [hw] at he
      subst he
      exact ⟨rfl, rfl⟩

/-- Witness for the amended C5 with the stock directory layout. -/
theorem c5_webfont_edge_witness :
    cfgTruthy cfgWebStock "ttfaUseScript" = false ∧
    cfgTruthy cfgWebStock "buildWebfont" = true ∧
    (∃ st, postProcessTTF cfgWebStock ⟨[], []⟩ "fonts/ttf/Family-Regular.ttf" = Except.ok st ∧
      (∃ e ∈ st.edges, e.rule = "webfont" ∧ e.inputs = ["fonts/ttf/Family-Regular.ttf"] ∧
        e.outputs = [pyReplace (pyReplace "fonts/ttf/Family-Regular.ttf" ".ttf" ".woff2")
          (cfgStr cfgWebStock "ttDir") (cfgStr cfgWebStock "woffDir")] ∧
        e.implicit = ["fonts/ttf/Family-Regular.ttf" ++ ".fixstamp"]) ∧
      (∀ e ∈ st.edges, e.rule = "webfont" →
        e.outputs = [pyReplace (pyReplace "fonts/ttf/Family-Regular.ttf" ".ttf" ".woff2")
          (cfgStr cfgWebStock "ttDir") (cfgStr cfgWebStock "woffDir")] ∧
        e.implicit = ["fonts/ttf/Family-Regular.ttf" ++ ".fixstamp"])) :=
  ⟨by decide, by decide,
   c5_webfont_edge cfgWebStock "fonts/ttf/Family-Regular.ttf" (by decide) (by decide)⟩

/-- C7 counterexample: the declared filename `./Light.ufo` contains a path
separator, yet the instantiate edge's output for it is the normalized
`Light.ufo`, not the verbatim `./Light.ufo`. -/
theorem c7_counterexample :
    strContainsChar "./Light.ufo" '/' = true ∧
    (instanceUfoEdge "master/Family.designspace" dsDotSlash).outputs = ["Light.ufo"] ∧
    ("Light.ufo" : String) ≠ "./Light.ufo" := by
  decide

/-- C7 (amended): for every design description, the instantiate edge's output
set is exactly, for each instance, the `pathlib`-normalized form of its
declared filename when that filename contains a path separator (identical to
the declared filename whenever it is already in normal form), and otherwise
the declared filename joined to the owning design description's directory;
the edge's input is the design description itself. -/
theorem c7_instance_paths (path : String) (ds : Designspace) :
    (buildStaticInterpolation [(path, ds)] ⟨[], []⟩).edges = [instanceUfoEdge path ds] ∧
    (instanceUfoEdge path ds).rule = "instanceufo" ∧
    (instanceUfoEdge path ds).inputs = [path] ∧
    (instanceUfoEdge path ds).outputs = ds.instances.map (fun inst =>
      if strContainsChar inst.filename '/' then PyPath.toStr (PyPath.parse inst.filename)
      else PyPath.toStr ((PyPath.parse path).parent.div inst.filename)) := by
  refine ⟨?_, rfl, rfl, ?_⟩
  · simp [buildStaticInterpolation]
  · show ((instanceUfoFilenames path ds).map PyPath.toStr) = _
    unfold instanceUfoFilenames
    rw [List.map_map]
    congr 1
    funext inst
    simp only [Function.comp_apply]
    exact apply_ite PyPath.toStr _ _ _

/-- C8 counterexample: with hinting enabled for `Out/Family-Regular.ttf`, the
hint edge's output is `Out/Family-Regular.ttf.autohintstamp`; no emitted edge
outputs the `Out/Family-Regular.ttf.hintstamp` the claim names. -/
theorem c8_counterexample :
    (∃ e ∈ runPPT cfgHint "Out/Family-Regular.ttf", e.rule = "autohint" ∧
      e.outputs = ["Out/Family-Regular.ttf.autohintstamp"]) ∧
    (∀ e ∈ runPPT cfgHint "Out/Family-Regular.ttf",
      e.outputs ≠ ["Out/Family-Regular.ttf.hintstamp"]) := by
  decide

/-- C8 (amended): when hinting is enabled for a compiled TTF file (with
`ttfaUseScript` falsy), the hint edge's output stamp path equals the file
name followed by `.autohintstamp`, and the fix edge's implicit inputs consist
of exactly that stamp path. -/
theorem c8_hint_stamp_name (config : Config) (filename : String)
    (ha : cfgTruthy config "autohintTTF" = true)
    (h : cfgTruthy config "ttfaUseScript" = false) :
    ∃ st, postProcessTTF config ⟨[], []⟩ filename = Except.ok st ∧
      (∃ e ∈ st.edges, e.rule = "autohint" ∧
        e.outputs = [filename ++ ".autohintstamp"]) ∧
      (∀ e ∈ st.edges, e.rule = "fix" →
        e.implicit = [filename ++ ".autohintstamp"]) := by
  refine ⟨_, postProcessTTF_eq config ⟨[], []⟩ filename h, ?_, ?_⟩
  · refine ⟨autohintEdge filename, ?_, rfl, rfl⟩
    apply List.mem_append_left
    apply List.mem_append_left
    simp [ha]
  · intro e he hr
    rcases List.mem_append.mp he with he | he
    · rcases List.mem_append.mp he with he | he
      · simp [ha] at he
        subst he
        exact absurd hr (by simp [autohintEdge])
      · rw [List.mem_singleton] at he
        subst he
        simp [fixEdge, ha, Option.toList]
    · rcases hW : cfgTruthy config "buildWebfont" with _ | _
      · simp [hW] at he
      · simp [hW] at he
        subst he
        exact absurd hr (by simp [webfontEdge])

/-- Witness for the amended C8. -/
theorem c8_hint_stamp_name_witness :
    cfgTruthy cfgHint "autohintTTF" = true ∧
    cfgTruthy cfgHint "ttfaUseScript" = false ∧
    (∃ st, postProcessTTF cfgHint ⟨[], []⟩ "Out/Family-Regular.ttf" = Except.ok st ∧
      (∃ e ∈ st.edges, e.rule = "autohint" ∧
        e.outputs = ["Out/Family-Regular.ttf" ++ ".autohintstamp"]) ∧
      (∀ e ∈ st.edges, e.rule = "fix" →
        e.implicit = ["Out/Family-Regular.ttf" ++ ".autohintstamp"])) :=
  ⟨by decide, by decide,
   c8_hint_stamp_name cfgHint "Out/Family-Regular.ttf" (by decide) (by decide)⟩

/-- C9: for every `InstantiateUFO` operation whose target is structurally
derived (no explicit `target` override in its recipe entry), an attempt to
assign an explicit target fails with `ValueError` and produces no updated
operation, so the target cannot be changed. -/
theorem c9_set_target_rejected (op : InstantiateUFO) (t : String)
    (h : cfgHas op.original "target" = false) :
    InstantiateUFO.setTarget op t =
      Except.error "Cannot set target on InstantiateUFO" ∧
    ∀ op2, InstantiateUFO.setTarget op t ≠ Except.ok op2 :=
  ⟨rfl, fun _ hk => Except.noConfusion hk⟩

/-- Witness for C9 on the `Light` instantiation operation. -/
theorem c9_set_target_rejected_witness :
    cfgHas opLight.original "target" = false ∧
    (InstantiateUFO.setTarget opLight "Other.ufo" =
      Except.error "Cannot set target on InstantiateUFO" ∧
    ∀ op2, InstantiateUFO.setTarget opLight "Other.ufo" ≠ Except.ok op2) :=
  ⟨by decide, c9_set_target_rejected opLight "Other.ufo" (by decide)⟩

/-- Normal form of `post_process_ttf` when hinting is disabled (the
`ttfaUseScript` test is never reached). -/
theorem postProcessTTF_eq_nohint (config : Config) (st : BuilderState)
    (filename : String) (hA : cfgTruthy config "autohintTTF" = false) :
    postProcessTTF config st filename =
      Except.ok
        { edges := st.edges ++ [fixEdge config filename none]
            ++ (if cfgTruthy config "buildWebfont" then [webfontEdge config filename] else [])
          temporaries := st.temporaries ++ [filename ++ ".fixstamp"] } := by
  unfold postProcessTTF
  rcases hW : cfgTruthy config "buildWebfont" with _ | _ <;>
    simp [hA, hW, postProcess, List.append_assoc]

/-- Appending one edge and recording its outputs preserves the
stamp-recording invariant. -/
theorem stampInv_extend (st : BuilderState) (e : Edge) (ts : List String)
    (h : stampInv st)
    (he : e.rule ∈ stampRules → ∀ o ∈ e.outputs, o ∈ st.temporaries ++ ts) :
    stampInv { edges := st.edges ++ [e], temporaries := st.temporaries ++ ts } := by
  intro e2 he2 hr o ho
  rcases List.mem_append.mp he2 with h1 | h1
  · exact List.mem_append_left _ (h e2 h1 hr o ho)
  · rw [List.mem_singleton] at h1
    subst h1
    exact he hr o ho

/-- Appending one edge with a single output and recording that output
preserves the stamp-recording invariant. -/
theorem stampInv_extend_single (st : BuilderState) (e : Edge) (s : String)
    (h : stampInv st) (hout : e.outputs = [s]) :
    stampInv { edges := st.edges ++ [e], temporaries := st.temporaries ++ [s] } := by
  refine stampInv_extend st e [s] h ?_
  intro _ o ho
  rw [hout, List.mem_singleton] at ho
  subst ho
  exact List.mem_append_right _ (List.mem_singleton.mpr rfl)

/-- Appending an edge whose rule produces no stamp preserves the invariant. -/
theorem stampInv_add_nonstamp (st : BuilderState) (e : Edge) (h : stampInv st)
    (he : e.rule ∈ stampRules → False) :
    stampInv { st with edges := st.edges ++ [e] } := by
  intro e2 he2 hr o ho
  rcases List.mem_append.mp he2 with h1 | h1
  · exact h e2 h1 hr o ho
  · rw [List.mem_singleton] at h1
    subst h1
    exact absurd hr he

/-- C10: each graph-construction method that emits a stamp-producing edge
(`gen_stat` for the `.statstamp`, `post_process` for each `.fixstamp`,
`post_process_ttf` for each `.autohintstamp` and `.fixstamp`) also records
the stamp in the builder's transient-file list, so the invariant "every
output of a `genstat`/`fix`/`autohint` edge is in `temporaries`" is preserved
by every one of them: at the end of graph construction the recorded cleanup
set contains every stamp output of the emitted graph. -/
theorem c10_stamp_outputs_recorded (config : Config)
    (dss : List (String × Designspace)) (st : BuilderState) (h : stampInv st) :
    (∀ tags targets config2 st2 sf,
        genStat config dss st tags targets = Except.ok (config2, st2, sf) →
          stampInv st2) ∧
    (∀ file impl, stampInv (postProcess config st file impl)) ∧
    (∀ filename st2,
        postProcessTTF config st filename = Except.ok st2 → stampInv st2) := by
  refine ⟨?_, ?_, ?_⟩
  · intro tags targets config2 st2 sf hok
    unfold genStat at hok
    rcases hC : (cfgHas (genStatConfig config dss tags) "stylespaceFile"
        || cfgHas (genStatConfig config dss tags) "statFormat4") with _ | _
    · rcases targets with _ | ⟨t, ts⟩
      · simp only [hC, Bool.false_eq_true, if_false] at hok
        exact Except.noConfusion hok
      · simp only [hC, Bool.false_eq_true, if_false, Except.ok.injEq,
          Prod.mk.injEq] at hok
        obtain ⟨-, hst, -⟩ := hok
        subst hst
        exact stampInv_extend_single st _ (t ++ ".statstamp") h rfl
    · simp only [hC, if_true] at hok
      exact Except.noConfusion hok
  · intro file impl
    exact stampInv_extend_single st _ (file ++ ".fixstamp") h rfl
  · intro filename st2 hok
    rcases hA : cfgTruthy config "autohintTTF" with _ | _
    · rw [postProcessTTF_eq_nohint config st filename hA] at hok
      simp only [Except.ok.injEq] at hok
      subst hok
      rcases hW : cfgTruthy config "buildWebfont" with _ | _
      · rw [if_neg Bool.false_ne_true, List.append_nil]
        exact stampInv_extend_single st _ (filename ++ ".fixstamp") h rfl
      · rw [if_pos rfl]
        exact stampInv_add_nonstamp
          ⟨st.edges ++ [fixEdge config filename none],
           st.temporaries ++ [filename ++ ".fixstamp"]⟩
          (webfontEdge config filename)
          (stampInv_extend_single st _ (filename ++ ".fixstamp") h rfl)
          (by simp [webfontEdge, stampRules])
    · rcases hT : cfgTruthy config "ttfaUseScript" with _ | _
      · rw [postProcessTTF_eq config st filename hT] at hok
        rw [hA] at hok
        simp only [if_true, Except.ok.injEq] at hok
        subst hok
        rcases hW : cfgTruthy config "buildWebfont" with _ | _
        · rw [if_neg Bool.false_ne_true, List.append_nil]
          exact stampInv_extend_single
            ⟨st.edges ++ [autohintEdge filename],
             st.temporaries ++ [filename ++ ".autohintstamp"]⟩
            (fixEdge config filename (some (filename ++ ".autohintstamp")))
            (filename ++ ".fixstamp")
            (stampInv_extend_single st _ (filename ++ ".autohintstamp") h rfl)
            rfl
        · rw [if_pos rfl]
          exact stampInv_add_nonstamp
            ⟨st.edges ++ [autohintEdge filename]
               ++ [fixEdge config filename (some (filename ++ ".autohintstamp"))],
             st.temporaries ++ [filename ++ ".autohintstamp"]
               ++ [filename ++ ".fixstamp"]⟩
            (webfontEdge config filename)
            (stampInv_extend_single
              ⟨st.edges ++ [autohintEdge filename],
               st.temporaries ++ [filename ++ ".autohintstamp"]⟩
              (fixEdge config filename (some (filename ++ ".autohintstamp")))
              (filename ++ ".fixstamp")
              (stampInv_extend_single st _ (filename ++ ".autohintstamp") h rfl)
              rfl)
            (by simp [webfontEdge, stampRules])
      · unfold postProcessTTF at hok
        rw [hA, hT] at hok
        simp at hok

/-- Witness for C10 from the empty builder state. -/
theorem c10_stamp_outputs_recorded_witness :
    stampInv ⟨[], []⟩ ∧
    ((∀ tags targets config2 st2 sf,
        genStat [] [] ⟨[], []⟩ tags targets = Except.ok (config2, st2, sf) →
          stampInv st2) ∧
     (∀ file impl, stampInv (postProcess [] ⟨[], []⟩ file impl)) ∧
     (∀ filename st2,
        postProcessTTF [] ⟨[], []⟩ filename = Except.ok st2 → stampInv st2)) :=
  ⟨fun e he => absurd he (List.not_mem_nil e),
   c10_stamp_outputs_recorded [] [] ⟨[], []⟩
     (fun e he => absurd he (List.not_mem_nil e))⟩
